import Mathlib

/-!
Verification development for the Budget-Tracker repository.

The repository is a thin client over a hosted relational store.  The logic
embedded here is the part the specification is about:

* `SupabaseTransactionRepository` (transaction CRUD and the incremental
  maintenance of each budget's `spent` aggregate, including the error-swallowing
  `updateBudgetSpent` helper);
* `SupabaseBudgetRepository` (`getById` error mapping and the `update` field
  whitelist);
* the optimistic-cache mutation handlers of the `useBudgets` and
  `useTransactions` hooks (snapshot, speculative apply, rollback, settlement
  invalidation).

Modelling conventions:

* Monetary amounts are 2-place fixed-point decimals (per the data model);
  they are represented exactly by their integer number of cents, so the
  carrier of every amount is `ℤ` (the operations in scope are only
  addition, subtraction, `max` and comparison, which respect this
  representation; floating-point rounding is outside the claims).
* Dates and timestamps are carried as opaque `String`s (ISO strings).
* The database is an in-memory pair of tables (lists of rows).  A supabase
  `update ... eq(id)` writes every row whose id matches; `.single()` on zero
  rows yields the distinguished error code `"PGRST116"`.
* A fallible persistence call is modelled by an explicit fault parameter: the
  outcome the supabase client would report for that call.  `none`/`false`
  means the call succeeds against the in-memory table.
* JS truthiness on `budgetId` strings is modelled by `Option` presence
  (row ids in this schema are non-empty UUIDs, so `''` never names a budget).
-/

/-- Transaction type: `'income' | 'expense'`. -/
inductive TxType where
  | income
  | expense
deriving DecidableEq, Repr

/-- Structured error from the persistence boundary; `code` is the PostgREST
error code (e.g. `"PGRST116"` for "not found"). -/
structure PgErr where
  code : String
deriving DecidableEq, Repr

/-- Row of the `transactions` table, identified with the domain `Transaction`
entity (the snake-case/`Number()`/`Date` conversions of `mapToDomain` are a
representation detail and are not re-modelled). -/
structure TransactionRow where
  id : String
  userId : String
  budgetId : Option String
  type : TxType
  amount : ℤ
  category : String
  description : String
  date : String
  createdAt : String
  updatedAt : String
deriving DecidableEq, Repr

/-- Row of the `budgets` table, identified with the domain `Budget` entity. -/
structure BudgetRow where
  id : String
  userId : String
  name : String
  category : String
  amount : ℤ
  spent : ℤ
  period : String
  startDate : String
  endDate : String
  color : Option String
  icon : Option String
  createdAt : String
  updatedAt : String
deriving DecidableEq, Repr

/-- The authoritative store: the two tables the embedded logic touches. -/
structure DB where
  transactions : List TransactionRow
  budgets : List BudgetRow
deriving DecidableEq, Repr

/-- `CreateTransactionInput` from the domain layer. -/
structure CreateTransactionInput where
  budgetId : Option String
  type : TxType
  amount : ℤ
  category : String
  description : String
  date : String
deriving DecidableEq, Repr

/-- `UpdateTransactionInput`: every field optional.  The outer `Option` is
"the field is present (not `undefined`)"; for `budgetId` the inner `Option`
distinguishes clearing the reference (`null`) from setting it. -/
structure UpdateTransactionInput where
  budgetId : Option (Option String)
  type : Option TxType
  amount : Option ℤ
  category : Option String
  description : Option String
  date : Option String
deriving DecidableEq, Repr

/-- `UpdateBudgetInput`: every field optional (present iff not `undefined`). -/
structure UpdateBudgetInput where
  name : Option String
  category : Option String
  amount : Option ℤ
  period : Option String
  startDate : Option String
  endDate : Option String
  color : Option String
  icon : Option String
deriving DecidableEq, Repr

/-- The `'add' | 'subtract'` argument of `updateBudgetSpent`. -/
inductive SpentOp where
  | add
  | subtract
deriving DecidableEq, Repr

/-- The `newSpent` computation of `updateBudgetSpent`:
`operation === 'add' ? budget.spent + amount : budget.spent - amount`. -/
def spentOpApply (operation : SpentOp) (spent amount : ℤ) : ℤ :=
  match operation with
  | .add => spent + amount
  | .subtract => spent - amount

/-- Fault injection for the two supabase calls inside `updateBudgetSpent`:
the read of the budget row and the write of the new `spent`. -/
structure SpentFaults where
  readFails : Bool
  writeFails : Bool
deriving DecidableEq, Repr

/-- All calls inside `updateBudgetSpent` succeed. -/
def noSpentFaults : SpentFaults := ⟨false, false⟩

/-- The distinguished "not found" error produced by `.single()` on zero rows. -/
def notFoundErr : PgErr := ⟨"PGRST116"⟩

/-- Unique-constraint violation reported on inserting a duplicate key. -/
def dupKeyErr : PgErr := ⟨"23505"⟩

/-- Decidable equality of persistence-call results, so concrete runs can be
checked by evaluation. -/
instance {ε α : Type} [DecidableEq ε] [DecidableEq α] : DecidableEq (Except ε α) := fun x y =>
  match x, y with
  | .ok a, .ok b =>
    if h : a = b then isTrue (by rw [h]) else isFalse (fun hc => by cases hc; exact h rfl)
  | .error a, .error b =>
    if h : a = b then isTrue (by rw [h]) else isFalse (fun hc => by cases hc; exact h rfl)
  | .ok _, .error _ => isFalse (fun hc => by cases hc)
  | .error _, .ok _ => isFalse (fun hc => by cases hc)

/-- Look a transaction row up by id (`.select().eq('id', id)` on one row). -/
def DB.findTransaction (db : DB) (transactionId : String) : Option TransactionRow :=
  db.transactions.find? (fun t => t.id == transactionId)

/-- Convenience accessor used by the theorems: the `spent` of the (first)
budget row with the given id. -/
def spentOf (db : DB) (budgetId : String) : Option ℤ :=
  (db.budgets.find? (fun b => b.id == budgetId)).map (fun b => b.spent)

namespace SupabaseTransactionRepository

/-- Embedding of `updateBudgetSpent(budgetId, amount, operation)`.

The source destructures only `data` from the read (`const { data: budget } =
await supabase...single()`): a failed read leaves `budget` null and the whole
block is skipped, with no error surfaced.  The write's result is not inspected
at all, so a failed write is likewise silent.  Accordingly this function
returns only the (possibly unchanged) store and can never report an error. -/
def updateBudgetSpent (db : DB) (budgetId : String) (amount : ℤ)
    (operation : SpentOp) (f : SpentFaults) : DB :=
  if f.readFails then db
  else
    match db.budgets.find? (fun b => b.id == budgetId) with
    | none => db
    | some budget =>
      let newSpent := spentOpApply operation budget.spent amount
      if f.writeFails then db
      else
        { db with
          budgets := db.budgets.map (fun b =>
            if b.id == budgetId then { b with spent := max 0 newSpent } else b) }

/-- The guard-then-adjust pattern shared by `create`, `update` and `delete`:
`if (x.budgetId && x.type === 'expense') await this.updateBudgetSpent(...)`. -/
def adjustIf (db : DB) (link : Option String) (ty : TxType) (amount : ℤ)
    (operation : SpentOp) (f : SpentFaults) : DB :=
  match link, ty with
  | some budgetId, .expense => updateBudgetSpent db budgetId amount operation f
  | _, _ => db

/-- Embedding of `getById(transactionId)`: a `"PGRST116"` error from the
`.single()` call is mapped to a null result, any other error is rethrown.
`fault` is the error (if any) the supabase call reports; absent a fault the
call returns the matching row, or reports `"PGRST116"` when there is none
(which the method again maps to null). -/
def getById (db : DB) (transactionId : String) (fault : Option PgErr) :
    Except PgErr (Option TransactionRow) :=
  match fault with
  | some e => if e.code == "PGRST116" then .ok none else .error e
  | none =>
    match db.findTransaction transactionId with
    | some row => .ok (some row)
    | none => .ok none

/-- The row `create` inserts (ids and timestamps are supplied by the store;
the generated row id is passed explicitly as `rowId`). -/
def mkRow (rowId userId : String) (input : CreateTransactionInput) : TransactionRow :=
  { id := rowId
    userId := userId
    budgetId := input.budgetId
    type := input.type
    amount := input.amount
    category := input.category
    description := input.description
    date := input.date
    createdAt := ""
    updatedAt := "" }

/-- Faults for `create`: the insert's reported error, and the faults of the
two calls inside the subsequent `updateBudgetSpent`. -/
structure CreateFaults where
  insertError : Option PgErr
  spent : SpentFaults
deriving DecidableEq, Repr

def noCreateFaults : CreateFaults := ⟨none, noSpentFaults⟩

/-- Embedding of `create(userId, input)`: insert the row (throwing the
insert's error if it fails), then, if the input is an expense linked to a
budget, add its amount to that budget's `spent`.  The returned store reflects
every write that happened before control returned to the caller. -/
def create (db : DB) (rowId userId : String) (input : CreateTransactionInput)
    (f : CreateFaults) : DB × Except PgErr TransactionRow :=
  match f.insertError with
  | some e => (db, .error e)
  | none =>
    if db.transactions.any (fun t => t.id == rowId) then (db, .error dupKeyErr)
    else
      let row := mkRow rowId userId input
      let db1 := { db with transactions := db.transactions ++ [row] }
      let db2 := adjustIf db1 input.budgetId input.type input.amount .add f.spent
      (db2, .ok row)

/-- The `updateData` merge of `update`: each field of the input that is
present overwrites the row's field; `id`, `userId`, `createdAt`, `updatedAt`
are never part of `updateData`. -/
def applyUpdateData (t : TransactionRow) (input : UpdateTransactionInput) : TransactionRow :=
  { t with
    budgetId := input.budgetId.getD t.budgetId
    type := input.type.getD t.type
    amount := input.amount.getD t.amount
    category := input.category.getD t.category
    description := input.description.getD t.description
    date := input.date.getD t.date }

/-- Faults for `update`: the prior-state fetch, the row update, and the two
`updateBudgetSpent` calls (subtract old contribution, add new one). -/
structure UpdateFaults where
  oldFetchError : Option PgErr
  rowUpdateError : Option PgErr
  subtractSpent : SpentFaults
  addSpent : SpentFaults
deriving DecidableEq, Repr

def noUpdateFaults : UpdateFaults := ⟨none, none, noSpentFaults, noSpentFaults⟩

/-- Embedding of `update(transactionId, input)`: fetch the old transaction via
`getById`, write the merged row (`.single()` reports `"PGRST116"` when no row
matches), then subtract the old contribution (from `oldTransaction`) and add
the new one (from the returned row `data`), each only for an expense linked to
a budget. -/
def update (db : DB) (transactionId : String) (input : UpdateTransactionInput)
    (f : UpdateFaults) : DB × Except PgErr TransactionRow :=
  match getById db transactionId f.oldFetchError with
  | .error e => (db, .error e)
  | .ok oldTransaction =>
    match f.rowUpdateError with
    | some e => (db, .error e)
    | none =>
      match db.findTransaction transactionId with
      | none => (db, .error notFoundErr)
      | some old =>
        let newRow := applyUpdateData old input
        let db1 := { db with
          transactions := db.transactions.map (fun t =>
            if t.id == transactionId then applyUpdateData t input else t) }
        let db2 :=
          match oldTransaction with
          | some o => adjustIf db1 o.budgetId o.type o.amount .subtract f.subtractSpent
          | none => db1
        let db3 := adjustIf db2 newRow.budgetId newRow.type newRow.amount .add f.addSpent
        (db3, .ok newRow)

/-- Faults for `delete`: the pre-fetch, the row delete, and the
`updateBudgetSpent` call. -/
structure DeleteFaults where
  fetchError : Option PgErr
  deleteError : Option PgErr
  spent : SpentFaults
deriving DecidableEq, Repr

def noDeleteFaults : DeleteFaults := ⟨none, none, noSpentFaults⟩

/-- Embedding of `delete(transactionId)`: fetch the transaction, delete the
row (a delete matching zero rows is not an error), then subtract its amount
from its budget's `spent` if it was a linked expense. -/
def delete (db : DB) (transactionId : String) (f : DeleteFaults) :
    DB × Except PgErr Unit :=
  match getById db transactionId f.fetchError with
  | .error e => (db, .error e)
  | .ok transaction =>
    match f.deleteError with
    | some e => (db, .error e)
    | none =>
      let db1 := { db with
        transactions := db.transactions.filter (fun t => t.id != transactionId) }
      let db2 :=
        match transaction with
        | some t => adjustIf db1 t.budgetId t.type t.amount .subtract f.spent
        | none => db1
      (db2, .ok ())

end SupabaseTransactionRepository
namespace SupabaseBudgetRepository

/-- Embedding of the budget repository's `getById(budgetId)`: identical error
mapping to the transaction repository's (`"PGRST116"` to null, everything else
rethrown). -/
def getById (db : DB) (budgetId : String) (fault : Option PgErr) :
    Except PgErr (Option BudgetRow) :=
  match fault with
  | some e => if e.code == "PGRST116" then .ok none else .error e
  | none =>
    match db.budgets.find? (fun b => b.id == budgetId) with
    | some row => .ok (some row)
    | none => .ok none

/-- The `updateData` merge of the budget repository's `update`: only `name`,
`category`, `amount`, `period`, `start_date`, `end_date`, `color`, `icon` can
appear in `updateData`; in particular `spent` and `user_id` are never
written. -/
def applyBudgetUpdateData (b : BudgetRow) (input : UpdateBudgetInput) : BudgetRow :=
  { b with
    name := input.name.getD b.name
    category := input.category.getD b.category
    amount := input.amount.getD b.amount
    period := input.period.getD b.period
    startDate := input.startDate.getD b.startDate
    endDate := input.endDate.getD b.endDate
    color := (input.color.map some).getD b.color
    icon := (input.icon.map some).getD b.icon }

/-- Embedding of `update(budgetId, input)`: write `updateData` to the matching
row; `.single()` reports `"PGRST116"` (thrown) when no row matches. -/
def update (db : DB) (budgetId : String) (input : UpdateBudgetInput) :
    DB × Except PgErr BudgetRow :=
  match db.budgets.find? (fun b => b.id == budgetId) with
  | none => (db, .error notFoundErr)
  | some b =>
    ({ db with
        budgets := db.budgets.map (fun x =>
          if x.id == budgetId then applyBudgetUpdateData x input else x) },
      .ok (applyBudgetUpdateData b input))

end SupabaseBudgetRepository

/-!
Optimistic-cache mutation handlers of the `useBudgets` and `useTransactions`
hooks.  A cached collection is `Option (List row)`: `none` is an unset cache
(`getQueryData` returned `undefined`).  Each `onMutate` returns the new cache
contents together with the snapshot it stores in the mutation context; each
`onError` restores the snapshot only when the context's snapshot is defined
(the source guards the rollback with `if (context?.previousX)`, and an array
— even an empty one — is truthy while `undefined` is not).
-/

namespace useBudgets

/-- `onMutate` of the create mutation: snapshot, then prepend the optimistic
budget (`[optimisticBudget, ...(old || [])]`). -/
def createOnMutate (cache : Option (List BudgetRow)) (optimisticBudget : BudgetRow) :
    Option (List BudgetRow) × Option (List BudgetRow) :=
  let previousBudgets := cache
  (some (optimisticBudget :: cache.getD []), previousBudgets)

/-- `onMutate` of the update mutation: snapshot, then map the spread merge
`{ ...b, ...input }` over the matching row. -/
def updateOnMutate (cache : Option (List BudgetRow)) (id : String)
    (input : UpdateBudgetInput) :
    Option (List BudgetRow) × Option (List BudgetRow) :=
  let previousBudgets := cache
  (some ((cache.getD []).map (fun b =>
      if b.id == id then SupabaseBudgetRepository.applyBudgetUpdateData b input else b)),
    previousBudgets)

/-- `onMutate` of the delete mutation: snapshot, then filter the row out. -/
def deleteOnMutate (cache : Option (List BudgetRow)) (id : String) :
    Option (List BudgetRow) × Option (List BudgetRow) :=
  let previousBudgets := cache
  (some ((cache.getD []).filter (fun b => b.id != id)), previousBudgets)

/-- `onError` (identical in all three budget mutations): restore the snapshot
iff `context?.previousBudgets` is defined, else leave the cache as is. -/
def onError (cache : Option (List BudgetRow)) (previousBudgets : Option (List BudgetRow)) :
    Option (List BudgetRow) :=
  match previousBudgets with
  | some prev => some prev
  | none => cache

/-- Cache contents after a create whose authoritative write fails:
`onMutate` then `onError` with the context `onMutate` returned. -/
def createFailedMutation (cache : Option (List BudgetRow)) (optimisticBudget : BudgetRow) :
    Option (List BudgetRow) :=
  let r := createOnMutate cache optimisticBudget
  onError r.1 r.2

/-- Cache contents after an update whose authoritative write fails. -/
def updateFailedMutation (cache : Option (List BudgetRow)) (id : String)
    (input : UpdateBudgetInput) : Option (List BudgetRow) :=
  let r := updateOnMutate cache id input
  onError r.1 r.2

/-- Cache contents after a delete whose authoritative write fails. -/
def deleteFailedMutation (cache : Option (List BudgetRow)) (id : String) :
    Option (List BudgetRow) :=
  let r := deleteOnMutate cache id
  onError r.1 r.2

end useBudgets

namespace useTransactions

/-- Query keys are heterogeneous lists `[literal, user?.id, scope]`; modelled
as lists of `Option String` (`none` is an undefined segment). -/
abbrev QueryKey := List (Option String)

def TRANSACTIONS_QUERY_KEY : String := "transactions"

def BUDGETS_QUERY_KEY : String := "budgets"

/-- The hook's own key: `[TRANSACTIONS_QUERY_KEY, user?.id, budgetId || 'all']`. -/
def transactionsQueryKey (userId : Option String) (budgetId : Option String) : QueryKey :=
  [some TRANSACTIONS_QUERY_KEY, userId, some (budgetId.getD "all")]

/-- The budgets collection key: `[BUDGETS_QUERY_KEY, user?.id]`. -/
def budgetsQueryKey (userId : Option String) : QueryKey :=
  [some BUDGETS_QUERY_KEY, userId]

/-- Keys invalidated by the create mutation's `onSettled` (which TanStack
Query runs on success and on failure alike): the hook's transactions key and
the owning user's budgets key. -/
def createOnSettled (userId : Option String) (budgetId : Option String) :
    List QueryKey :=
  [transactionsQueryKey userId budgetId, budgetsQueryKey userId]

/-- Keys invalidated by the update mutation's `onSettled`. -/
def updateOnSettled (userId : Option String) (budgetId : Option String) :
    List QueryKey :=
  [transactionsQueryKey userId budgetId, budgetsQueryKey userId]

/-- Keys invalidated by the delete mutation's `onSettled`. -/
def deleteOnSettled (userId : Option String) (budgetId : Option String) :
    List QueryKey :=
  [transactionsQueryKey userId budgetId, budgetsQueryKey userId]

/-- `onMutate` of the create mutation: snapshot, then prepend the optimistic
transaction. -/
def createOnMutate (cache : Option (List TransactionRow))
    (optimisticTransaction : TransactionRow) :
    Option (List TransactionRow) × Option (List TransactionRow) :=
  let previousTransactions := cache
  (some (optimisticTransaction :: cache.getD []), previousTransactions)

/-- `onMutate` of the update mutation: snapshot, then spread-merge the input
over the matching row. -/
def updateOnMutate (cache : Option (List TransactionRow)) (id : String)
    (input : UpdateTransactionInput) :
    Option (List TransactionRow) × Option (List TransactionRow) :=
  let previousTransactions := cache
  (some ((cache.getD []).map (fun t =>
      if t.id == id then SupabaseTransactionRepository.applyUpdateData t input else t)),
    previousTransactions)

/-- `onMutate` of the delete mutation: snapshot, then filter the row out. -/
def deleteOnMutate (cache : Option (List TransactionRow)) (id : String) :
    Option (List TransactionRow) × Option (List TransactionRow) :=
  let previousTransactions := cache
  (some ((cache.getD []).filter (fun t => t.id != id)), previousTransactions)

/-- `onError` (identical in all three transaction mutations): restore the
snapshot iff `context?.previousTransactions` is defined. -/
def onError (cache : Option (List TransactionRow))
    (previousTransactions : Option (List TransactionRow)) :
    Option (List TransactionRow) :=
  match previousTransactions with
  | some prev => some prev
  | none => cache

/-- Cache contents after a create whose authoritative write fails. -/
def createFailedMutation (cache : Option (List TransactionRow))
    (optimisticTransaction : TransactionRow) : Option (List TransactionRow) :=
  let r := createOnMutate cache optimisticTransaction
  onError r.1 r.2

/-- Cache contents after an update whose authoritative write fails. -/
def updateFailedMutation (cache : Option (List TransactionRow)) (id : String)
    (input : UpdateTransactionInput) : Option (List TransactionRow) :=
  let r := updateOnMutate cache id input
  onError r.1 r.2

/-- Cache contents after a delete whose authoritative write fails. -/
def deleteFailedMutation (cache : Option (List TransactionRow)) (id : String) :
    Option (List TransactionRow) :=
  let r := deleteOnMutate cache id
  onError r.1 r.2

end useTransactions

/-!
Operation sequences against the transaction repository (all persistence
succeeding), and the spec-side aggregate the `spent` field is compared with.
-/

/-- One owner action against the transaction repository. -/
inductive TxOp where
  | create (rowId userId : String) (input : CreateTransactionInput)
  | update (transactionId : String) (input : UpdateTransactionInput)
  | delete (transactionId : String)
deriving DecidableEq, Repr

/-- Run one repository method with every persistence call succeeding; `none`
when the operation reports an error (duplicate key on create, no matching row
on update). -/
def applyTxOp (db : DB) : TxOp → Option DB
  | .create rowId userId input =>
    match SupabaseTransactionRepository.create db rowId userId input
        SupabaseTransactionRepository.noCreateFaults with
    | (db1, .ok _) => some db1
    | (_, .error _) => none
  | .update transactionId input =>
    match SupabaseTransactionRepository.update db transactionId input
        SupabaseTransactionRepository.noUpdateFaults with
    | (db1, .ok _) => some db1
    | (_, .error _) => none
  | .delete transactionId =>
    match SupabaseTransactionRepository.delete db transactionId
        SupabaseTransactionRepository.noDeleteFaults with
    | (db1, .ok _) => some db1
    | (_, .error _) => none

/-- Run a sequence of owner actions; `none` as soon as one fails. -/
def runTxOps (db : DB) : List TxOp → Option DB
  | [] => some db
  | op :: ops => (applyTxOp db op).bind (fun db1 => runTxOps db1 ops)

/-- Contribution of one transaction row to a budget's aggregate: its amount
when it is an expense referencing that budget, `0` otherwise. -/
def txContrib (budgetId : String) (t : TransactionRow) : ℤ :=
  if t.budgetId = some budgetId ∧ t.type = .expense then t.amount else 0

/-- Sum of the amounts of the expense transactions currently referencing the
budget: the value the spec says `spent` must equal. -/
def sumSpent (txs : List TransactionRow) (budgetId : String) : ℤ :=
  (txs.map (txContrib budgetId)).sum

/-- Contribution the guard of `adjustIf` acts on, as a function of the target
budget id (definitionally `txContrib` with the row's fields split out). -/
def linkContrib (link : Option String) (ty : TxType) (amount : ℤ) (budgetId : String) : ℤ :=
  if link = some budgetId ∧ ty = .expense then amount else 0

/-- The consistency invariant of the store: distinct transaction ids,
non-negative transaction amounts, and every budget's `spent` equal to the sum
of the expense transactions referencing it. -/
def SpentInvariant (db : DB) : Prop :=
  (db.transactions.map (fun t => t.id)).Nodup ∧
  (∀ t ∈ db.transactions, 0 ≤ t.amount) ∧
  (∀ b ∈ db.budgets, b.spent = sumSpent db.transactions b.id)

instance (db : DB) : Decidable (SpentInvariant db) := by
  unfold SpentInvariant
  infer_instance

/-- Validation precondition the interface enforces before any network call:
amounts are non-negative. -/
def TxOp.amountsNonneg : TxOp → Prop
  | .create _ _ input => 0 ≤ input.amount
  | .update _ input =>
    match input.amount with
    | some a => 0 ≤ a
    | none => True
  | .delete _ => True

instance (op : TxOp) : Decidable op.amountsNonneg := by
  cases op with
  | create rowId userId input => exact inferInstanceAs (Decidable (0 ≤ input.amount))
  | update transactionId input =>
    obtain ⟨bI, tyI, aI, cI, dI, dtI⟩ := input
    cases aI with
    | none => exact inferInstanceAs (Decidable True)
    | some a => exact inferInstanceAs (Decidable (0 ≤ a))
  | delete transactionId => exact inferInstanceAs (Decidable True)

/-! Concrete fixtures used by scenario theorems and witnesses. -/

/-- Budget B of the spec scenario: amount 500.00, spent 0.00. -/
def budgetB : BudgetRow :=
  ⟨"b1", "u1", "Groceries", "food", 50000, 0, "monthly", "2024-01-01", "2024-12-31",
    none, none, "", ""⟩

/-- A second budget, for frame-effect checks. -/
def budgetC : BudgetRow :=
  ⟨"b2", "u1", "Fun", "fun", 20000, 0, "monthly", "2024-01-01", "2024-12-31",
    none, none, "", ""⟩

/-- Store before the scenario: budget B, no transactions. -/
def dbC2start : DB := ⟨[], [budgetB]⟩

/-- Expense transaction T1: amount 120.00 (12000 cents), linked to B. -/
def inputT1 : CreateTransactionInput :=
  ⟨some "b1", .expense, 12000, "food", "lunch", "2024-05-01"⟩

/-- An income transaction carrying a budget reference. -/
def inputIncome : CreateTransactionInput :=
  ⟨some "b1", .income, 3000, "salary", "pay", "2024-05-01"⟩

/-- Update input setting only `amount := 80.00` (8000 cents). -/
def updateAmount80 : UpdateTransactionInput := ⟨none, none, some 8000, none, none, none⟩

/-- Update input that only clears the budget reference (`budgetId: null`). -/
def clearBudgetInput : UpdateTransactionInput := ⟨some none, none, none, none, none, none⟩

/-- Update input with no field present. -/
def emptyUpdateInput : UpdateTransactionInput := ⟨none, none, none, none, none, none⟩

def opCreateT1 : TxOp := .create "t1" "u1" inputT1

def opUpdateT1 : TxOp := .update "t1" updateAmount80

def opDeleteT1 : TxOp := .delete "t1"

/-- A generic (non-"not found") persistence error. -/
def err500 : PgErr := ⟨"500"⟩

/-- The optimistic budget a create inserts under a temporary id. -/
def tempBudget : BudgetRow :=
  ⟨"temp-1700000000000", "u1", "New budget", "misc", 10000, 0, "monthly",
    "2024-01-01", "2024-12-31", none, none, "", ""⟩

/-- The row `create` writes for T1. -/
def rowT1 : TransactionRow := SupabaseTransactionRepository.mkRow "t1" "u1" inputT1

/-- Store after creating T1 against `dbC2start`. -/
def dbC1end : DB := ⟨[rowT1], [{ budgetB with spent := 12000 }]⟩

/-- Budget B with `spent = 120`. -/
def budgetB120 : BudgetRow := { budgetB with spent := 12000 }

/-- Store for the unlink scenario: T1 (expense 12000 cents, linked to B),
budget B with spent 12000, and untouched budget C. -/
def db7 : DB := ⟨[rowT1], [budgetB120, budgetC]⟩

/-!  Theorems.  Each claim's theorem carries the claim id in its doc comment. -/

/-- C2 counterexample: in the spec scenario (budget B with spent 0.00, create
expense T1 of 120.00 linked to B, then update T1's amount to 80.00), the code
leaves B.spent at 80.00 (8000 cents), not at 40.00 (4000 cents) as the claim
states: the update subtracts the full old amount and adds the full new
amount, it does not apply the difference twice. -/
theorem c2_counterexample :
    (runTxOps dbC2start [opCreateT1, opUpdateT1]).map (fun d => spentOf d "b1") =
      some (some 8000) ∧
    ¬ (runTxOps dbC2start [opCreateT1, opUpdateT1]).map (fun d => spentOf d "b1") =
      some (some 4000) := by
  decide

/-- C2 (amended): starting from budget B with spent = 0.00, creating expense
T1 with amount 120.00 linked to B makes B.spent = 120.00; then updating T1's
amount to 80.00 makes B.spent = 80.00 (not 40.00); then deleting T1 makes
B.spent = 0.00. -/
theorem c2_scenario_amended :
    (runTxOps dbC2start [opCreateT1]).map (fun d => spentOf d "b1") = some (some 12000) ∧
    (runTxOps dbC2start [opCreateT1, opUpdateT1]).map (fun d => spentOf d "b1") =
      some (some 8000) ∧
    (runTxOps dbC2start [opCreateT1, opUpdateT1, opDeleteT1]).map (fun d => spentOf d "b1") =
      some (some 0) := by
  decide

/-- C5 counterexample: an optimistic budget create issued while the cached
collection was still unset (`getQueryData` returned `undefined`) that then
fails server-side does NOT restore the pre-mutation cache: the rollback is
guarded by `if (context?.previousBudgets)`, the snapshot is `undefined`, so
the temporary-id entry stays in the cache. -/
theorem c5_counterexample :
    useBudgets.createFailedMutation none tempBudget = some [tempBudget] ∧
    ¬ useBudgets.createFailedMutation none tempBudget = none := by
  decide

/-- C5 (amended): for every optimistic mutation (create, update or delete, on
either cached collection) whose authoritative write fails, IF the cached
collection held a value before the mutation (the snapshot is defined), the
cache is restored to exactly that pre-mutation snapshot — in particular a
failed optimistic create leaves no residual temporary-id entry; if the cache
was unset before the mutation, the rollback is skipped and the speculative
entry remains until the settlement-triggered refetch. -/
theorem c5_rollback_restores_defined_snapshot (prevB : List BudgetRow)
    (prevT : List TransactionRow) (optB : BudgetRow) (optT : TransactionRow)
    (idB idT : String) (inB : UpdateBudgetInput) (inT : UpdateTransactionInput) :
    useBudgets.createFailedMutation (some prevB) optB = some prevB ∧
    useBudgets.updateFailedMutation (some prevB) idB inB = some prevB ∧
    useBudgets.deleteFailedMutation (some prevB) idB = some prevB ∧
    useTransactions.createFailedMutation (some prevT) optT = some prevT ∧
    useTransactions.updateFailedMutation (some prevT) idT inT = some prevT ∧
    useTransactions.deleteFailedMutation (some prevT) idT = some prevT :=
  ⟨rfl, rfl, rfl, rfl, rfl, rfl⟩

/-- C6: for both single-row fetches by identifier (budget `getById` and
transaction `getById`), an error with the distinguished "not found" code
`"PGRST116"` from the persistence boundary is mapped to a null result, and
every error with any other code is propagated to the caller. -/
theorem c6_getById_error_mapping (db : DB) (tid bid : String) (e : PgErr) :
    (e.code = "PGRST116" →
      SupabaseBudgetRepository.getById db bid (some e) = .ok none ∧
      SupabaseTransactionRepository.getById db tid (some e) = .ok none) ∧
    (e.code ≠ "PGRST116" →
      SupabaseBudgetRepository.getById db bid (some e) = .error e ∧
      SupabaseTransactionRepository.getById db tid (some e) = .error e) := by
  constructor <;> intro h <;>
    simp [SupabaseBudgetRepository.getById, SupabaseTransactionRepository.getById, h]

/-- C6 witness: the mapping at a concrete "not found" error and at a concrete
other error. -/
theorem c6_getById_error_mapping_witness :
    SupabaseBudgetRepository.getById dbC2start "b1" (some notFoundErr) = .ok none ∧
    SupabaseTransactionRepository.getById dbC2start "t1" (some err500) = .error err500 :=
  ⟨((c6_getById_error_mapping dbC2start "t1" "b1" notFoundErr).1 rfl).1,
   ((c6_getById_error_mapping dbC2start "t1" "b1" err500).2 (by decide)).2⟩

/-- C9: the `onSettled` handler of each transaction mutation (create, update,
delete) — which TanStack Query runs on success and failure alike —
invalidates (marks stale, forcing a refetch of) both the hook's transactions
collection key and the owning user's budgets collection key. -/
theorem c9_settled_invalidates_both (userId budgetId : Option String) :
    (useTransactions.transactionsQueryKey userId budgetId ∈
        useTransactions.createOnSettled userId budgetId ∧
      useTransactions.budgetsQueryKey userId ∈
        useTransactions.createOnSettled userId budgetId) ∧
    (useTransactions.transactionsQueryKey userId budgetId ∈
        useTransactions.updateOnSettled userId budgetId ∧
      useTransactions.budgetsQueryKey userId ∈
        useTransactions.updateOnSettled userId budgetId) ∧
    (useTransactions.transactionsQueryKey userId budgetId ∈
        useTransactions.deleteOnSettled userId budgetId ∧
      useTransactions.budgetsQueryKey userId ∈
        useTransactions.deleteOnSettled userId budgetId) := by
  simp [useTransactions.createOnSettled, useTransactions.updateOnSettled,
    useTransactions.deleteOnSettled]

/-- Helper: a faulted `updateBudgetSpent` (failed read or failed write) leaves
the store untouched and surfaces no error. -/
theorem updateBudgetSpent_fault (db : DB) (budgetId : String) (amount : ℤ)
    (operation : SpentOp) (f : SpentFaults)
    (hf : f.readFails = true ∨ f.writeFails = true) :
    SupabaseTransactionRepository.updateBudgetSpent db budgetId amount operation f = db := by
  unfold SupabaseTransactionRepository.updateBudgetSpent
  rcases hf with h | h
  · simp [h]
  · by_cases hr : f.readFails = true
    · simp [hr]
    · cases hfind : db.budgets.find? (fun b => b.id == budgetId) <;> simp [hr, hfind, h]

/-- Helper: the guard-then-adjust step under a faulted `updateBudgetSpent`
leaves the store untouched. -/
theorem adjustIf_fault (db : DB) (link : Option String) (ty : TxType) (amount : ℤ)
    (operation : SpentOp) (f : SpentFaults)
    (hf : f.readFails = true ∨ f.writeFails = true) :
    SupabaseTransactionRepository.adjustIf db link ty amount operation f = db := by
  cases link with
  | none => cases ty <;> rfl
  | some bid =>
    cases ty with
    | income => rfl
    | expense => exact updateBudgetSpent_fault db bid amount operation f hf

/-- C10: the budget repository's `update` never changes any budget's `spent`
or owner reference (nor its id), for any combination of present input fields:
the written `updateData` can only contain name, category, amount, period,
start date, end date, color and icon.  Additionally every row of the result is
either an untouched old row or the `updateData`-merge of an old row, and the
transactions table is untouched. -/
theorem c10_budget_update_frame (db : DB) (budgetId : String) (input : UpdateBudgetInput) :
    ((SupabaseBudgetRepository.update db budgetId input).1.budgets.map
        (fun b => (b.id, b.userId, b.spent))) =
      db.budgets.map (fun b => (b.id, b.userId, b.spent)) ∧
    (∀ x ∈ (SupabaseBudgetRepository.update db budgetId input).1.budgets,
      x ∈ db.budgets ∨
        ∃ y ∈ db.budgets, x = SupabaseBudgetRepository.applyBudgetUpdateData y input) ∧
    (SupabaseBudgetRepository.update db budgetId input).1.transactions = db.transactions := by
  unfold SupabaseBudgetRepository.update
  cases hfind : db.budgets.find? (fun b => b.id == budgetId) with
  | none => exact ⟨rfl, fun x hx => Or.inl hx, rfl⟩
  | some b =>
    refine ⟨?_, ?_, rfl⟩
    · simp only [List.map_map]
      apply List.map_congr_left
      intro x _
      by_cases hid : x.id = budgetId <;>
        simp [hid, SupabaseBudgetRepository.applyBudgetUpdateData]
    · intro x hx
      simp only [List.mem_map] at hx
      obtain ⟨y, hy, rfl⟩ := hx
      by_cases hid : y.id = budgetId
      · exact Or.inr ⟨y, hy, by simp [hid]⟩
      · exact Or.inl (by simpa [hid] using hy)

/-- C8: creating an income-type transaction — with or without a budget
reference, and whatever the outcome of each persistence step — never changes
the budgets table, in particular no budget's `spent`. -/
theorem c8_income_create_budgets_unchanged (db : DB) (rowId userId : String)
    (input : CreateTransactionInput) (f : SupabaseTransactionRepository.CreateFaults)
    (h : input.type = .income) :
    (SupabaseTransactionRepository.create db rowId userId input f).1.budgets = db.budgets := by
  obtain ⟨ie, fs⟩ := f
  cases ie with
  | some e => rfl
  | none =>
    by_cases hdup : db.transactions.any (fun t => t.id == rowId)
    · simp [SupabaseTransactionRepository.create, hdup]
    · cases hb : input.budgetId <;>
        simp [SupabaseTransactionRepository.create, hdup,
          SupabaseTransactionRepository.adjustIf, h, hb]

/-- C8 witness: a concrete income create linked to budget B leaves the
budgets table unchanged. -/
theorem c8_income_create_budgets_unchanged_witness :
    (SupabaseTransactionRepository.create dbC2start "t9" "u1" inputIncome
        SupabaseTransactionRepository.noCreateFaults).1.budgets = dbC2start.budgets :=
  c8_income_create_budgets_unchanged dbC2start "t9" "u1" inputIncome
    SupabaseTransactionRepository.noCreateFaults rfl

/-- C4 (amended): error handling of the transaction repository per failing
step.  A failure of the transaction-row operation itself propagates the
underlying error to the caller with no rollback of anything already applied:
a failed insert, a failed prior-state fetch with a non-"not found" code, a
failed row update and a failed row delete all surface their error and leave
the store as it was at the failure point.  A failure INSIDE the budget-spent
adjustment, however, is swallowed: the operation reports success, the already
written transaction row is kept (not rolled back), and the adjustment is
simply skipped, leaving the aggregate inconsistent with no error at all. -/
theorem c4_failure_handling (db : DB) (rowId userId tid tid2 : String)
    (input : CreateTransactionInput) (uinput : UpdateTransactionInput) (e : PgErr)
    (fs fs2 : SpentFaults) (hfault : fs.readFails = true ∨ fs.writeFails = true) :
    SupabaseTransactionRepository.create db rowId userId input ⟨some e, fs⟩ =
      (db, .error e) ∧
    (db.transactions.any (fun t => t.id == rowId) = false →
      SupabaseTransactionRepository.create db rowId userId input ⟨none, fs⟩ =
        ({ db with transactions :=
            db.transactions ++ [SupabaseTransactionRepository.mkRow rowId userId input] },
          .ok (SupabaseTransactionRepository.mkRow rowId userId input))) ∧
    (e.code ≠ "PGRST116" →
      SupabaseTransactionRepository.update db tid uinput ⟨some e, none, fs, fs2⟩ =
        (db, .error e)) ∧
    SupabaseTransactionRepository.update db tid uinput ⟨none, some e, fs, fs2⟩ =
      (db, .error e) ∧
    SupabaseTransactionRepository.delete db tid2 ⟨none, some e, fs⟩ = (db, .error e) ∧
    SupabaseTransactionRepository.delete db tid2 ⟨none, none, fs⟩ =
      ({ db with transactions := db.transactions.filter (fun t => t.id != tid2) },
        .ok ()) := by
  refine ⟨rfl, ?_, ?_, ?_, ?_, ?_⟩
  · intro hdup
    simp only [SupabaseTransactionRepository.create, hdup, Bool.false_eq_true, if_false]
    rw [adjustIf_fault _ _ _ _ _ _ hfault]
  · intro hcode
    simp [SupabaseTransactionRepository.update, SupabaseTransactionRepository.getById, hcode]
  · unfold SupabaseTransactionRepository.update SupabaseTransactionRepository.getById
    cases db.findTransaction tid <;> rfl
  · unfold SupabaseTransactionRepository.delete SupabaseTransactionRepository.getById
    cases db.findTransaction tid2 <;> rfl
  · unfold SupabaseTransactionRepository.delete SupabaseTransactionRepository.getById
    cases hfind : db.findTransaction tid2 with
    | none => rfl
    | some t =>
      simp only []
      rw [adjustIf_fault _ _ _ _ _ _ hfault]

/-- C4 witness: concrete instances of both halves — a failed insert
propagates its error with the store untouched, and a create whose
budget-spent write fails still reports success with the row kept. -/
theorem c4_failure_handling_witness :
    SupabaseTransactionRepository.create dbC2start "t1" "u1" inputT1
        ⟨some err500, ⟨true, false⟩⟩ = (dbC2start, .error err500) ∧
    SupabaseTransactionRepository.create dbC2start "t1" "u1" inputT1
        ⟨none, ⟨true, false⟩⟩ =
      ({ dbC2start with transactions := dbC2start.transactions ++ [rowT1] }, .ok rowT1) :=
  ⟨(c4_failure_handling dbC2start "t1" "u1" "t1" "t1" inputT1 emptyUpdateInput err500
      ⟨true, false⟩ ⟨false, false⟩ (Or.inl rfl)).1,
   (c4_failure_handling dbC2start "t1" "u1" "t1" "t1" inputT1 emptyUpdateInput err500
      ⟨true, false⟩ ⟨false, false⟩ (Or.inl rfl)).2.1 (by decide)⟩

/-- C4 counterexample: a create in which the persistence write inside the
budget-spent adjustment fails.  The claim says the caller receives the
underlying error of the failing step; in fact the caller receives a success
(`Except.ok` with the created row), the row stays written and B's spent is
left at 0 — the adjustment failure is silently swallowed. -/
theorem c4_counterexample :
    SupabaseTransactionRepository.create dbC2start "t1" "u1" inputT1
        ⟨none, ⟨false, true⟩⟩ =
      ({ dbC2start with transactions := [rowT1] }, .ok rowT1) ∧
    spentOf { dbC2start with transactions := [rowT1] } "b1" = some 0 := by
  decide

/-! Helper lemmas about the spec-side aggregate `sumSpent`. -/

theorem sumSpent_nil (x : String) : sumSpent [] x = 0 := rfl

theorem sumSpent_cons (t : TransactionRow) (txs : List TransactionRow) (x : String) :
    sumSpent (t :: txs) x = txContrib x t + sumSpent txs x := by
  simp [sumSpent]

theorem txContrib_nonneg (x : String) (t : TransactionRow) (h : 0 ≤ t.amount) :
    0 ≤ txContrib x t := by
  unfold txContrib
  split <;> simp [h]

theorem sumSpent_nonneg (txs : List TransactionRow) (x : String)
    (h : ∀ t ∈ txs, 0 ≤ t.amount) : 0 ≤ sumSpent txs x := by
  apply List.sum_nonneg
  intro q hq
  simp only [List.mem_map] at hq
  obtain ⟨t, ht, rfl⟩ := hq
  exact txContrib_nonneg x t (h t ht)

theorem txContrib_le_sumSpent (txs : List TransactionRow) (x : String)
    (t : TransactionRow) (h : ∀ u ∈ txs, 0 ≤ u.amount) (ht : t ∈ txs) :
    txContrib x t ≤ sumSpent txs x := by
  apply List.single_le_sum
  · intro q hq
    simp only [List.mem_map] at hq
    obtain ⟨u, hu, rfl⟩ := hq
    exact txContrib_nonneg x u (h u hu)
  · exact List.mem_map_of_mem (txContrib x) ht

theorem sumSpent_append_single (txs : List TransactionRow) (r : TransactionRow) (x : String) :
    sumSpent (txs ++ [r]) x = sumSpent txs x + txContrib x r := by
  simp [sumSpent]

theorem filter_eq_of_find?_none (txs : List TransactionRow) (tid : String)
    (h : txs.find? (fun u => u.id == tid) = none) :
    txs.filter (fun u => u.id != tid) = txs := by
  rw [List.filter_eq_self]
  intro u hu
  have := List.find?_eq_none.mp h u hu
  simpa using this

theorem sumSpent_filter_of_find? (txs : List TransactionRow) (tid : String)
    (t : TransactionRow) (x : String)
    (hnd : (txs.map (fun u => u.id)).Nodup)
    (hf : txs.find? (fun u => u.id == tid) = some t) :
    sumSpent (txs.filter (fun u => u.id != tid)) x = sumSpent txs x - txContrib x t := by
  induction txs with
  | nil => simp at hf
  | cons a l ih =>
    simp only [List.map_cons, List.nodup_cons] at hnd
    by_cases ha : a.id = tid
    · have hfa : (a :: l).find? (fun u => u.id == tid) = some a :=
        List.find?_cons_of_pos _ (by simp [ha])
      rw [hf] at hfa
      obtain rfl : t = a := Option.some.inj hfa
      have hl : ∀ u ∈ l, (u.id != tid) = true := by
        intro u hu
        have hne : u.id ≠ t.id := by
          intro hc
          exact hnd.1 (hc ▸ List.mem_map_of_mem (fun y => y.id) hu)
        rw [ha] at hne
        simp [hne]
      rw [List.filter_cons]
      have hba : (t.id != tid) = false := by simp [ha]
      rw [hba]
      simp only [Bool.false_eq_true, if_false]
      rw [List.filter_eq_self.mpr hl, sumSpent_cons]
      ring
    · have hfl : l.find? (fun u => u.id == tid) = some t := by
        rw [List.find?_cons_of_neg _ (by simp [ha])] at hf
        exact hf
      rw [List.filter_cons]
      have : (a.id != tid) = true := by simp [ha]
      rw [this]
      simp only [if_true]
      rw [sumSpent_cons, sumSpent_cons, ih hnd.2 hfl]
      ring

theorem sumSpent_map_update (txs : List TransactionRow) (tid : String)
    (old : TransactionRow) (input : UpdateTransactionInput) (x : String)
    (hnd : (txs.map (fun u => u.id)).Nodup)
    (hf : txs.find? (fun u => u.id == tid) = some old) :
    sumSpent (txs.map (fun u =>
        if u.id == tid then SupabaseTransactionRepository.applyUpdateData u input else u)) x =
      sumSpent txs x - txContrib x old +
        txContrib x (SupabaseTransactionRepository.applyUpdateData old input) := by
  induction txs with
  | nil => simp at hf
  | cons a l ih =>
    simp only [List.map_cons, List.nodup_cons] at hnd
    by_cases ha : a.id = tid
    · have hfa : (a :: l).find? (fun u => u.id == tid) = some a :=
        List.find?_cons_of_pos _ (by simp [ha])
      rw [hf] at hfa
      obtain rfl : old = a := Option.some.inj hfa
      have hl : ∀ u ∈ l,
          (fun u => if u.id == tid
            then SupabaseTransactionRepository.applyUpdateData u input else u) u = u := by
        intro u hu
        have hne : u.id ≠ old.id := by
          intro hc
          exact hnd.1 (hc ▸ List.mem_map_of_mem (fun y => y.id) hu)
        rw [ha] at hne
        simp [hne]
      rw [List.map_cons]
      have hba : (old.id == tid) = true := by simp [ha]
      rw [hba]
      simp only [if_true]
      rw [List.map_congr_left hl, List.map_id']
      rw [sumSpent_cons, sumSpent_cons]
      ring
    · have hfl : l.find? (fun u => u.id == tid) = some old := by
        rw [List.find?_cons_of_neg _ (by simp [ha])] at hf
        exact hf
      rw [List.map_cons]
      have hba : (a.id == tid) = false := by simp [ha]
      rw [hba]
      simp only [Bool.false_eq_true, if_false]
      rw [sumSpent_cons, sumSpent_cons, ih hnd.2 hfl]
      ring

/-! Helper lemmas about the budget-adjustment step. -/

theorem txContrib_eq_linkContrib (x : String) (t : TransactionRow) :
    txContrib x t = linkContrib t.budgetId t.type t.amount x := rfl

theorem updateBudgetSpent_transactions (db : DB) (budgetId : String) (amount : ℤ)
    (operation : SpentOp) (f : SpentFaults) :
    (SupabaseTransactionRepository.updateBudgetSpent db budgetId amount operation f).transactions =
      db.transactions := by
  unfold SupabaseTransactionRepository.updateBudgetSpent
  by_cases hr : f.readFails = true
  · simp [hr]
  · cases hfind : db.budgets.find? (fun b => b.id == budgetId) with
    | none => simp [hr, hfind]
    | some b =>
      by_cases hw : f.writeFails = true <;> simp [hr, hfind, hw]

theorem adjustIf_transactions (db : DB) (link : Option String) (ty : TxType)
    (amount : ℤ) (operation : SpentOp) (f : SpentFaults) :
    (SupabaseTransactionRepository.adjustIf db link ty amount operation f).transactions =
      db.transactions := by
  cases link with
  | none => cases ty <;> rfl
  | some bid =>
    cases ty with
    | income => rfl
    | expense => exact updateBudgetSpent_transactions db bid amount operation f

theorem linkContrib_of_ne (bid x : String) (ty : TxType) (amount : ℤ) (h : x ≠ bid) :
    linkContrib (some bid) ty amount x = 0 := by
  unfold linkContrib
  rw [if_neg]
  intro hc
  exact h (Option.some.inj hc.1).symm

theorem adjustIf_budgets_add (db : DB) (link : Option String) (ty : TxType)
    (amount : ℤ) (g : String → ℤ)
    (hg : ∀ b ∈ db.budgets, b.spent = g b.id)
    (hpos : ∀ x, 0 ≤ g x) (hamt : 0 ≤ amount) :
    ∀ b ∈ (SupabaseTransactionRepository.adjustIf db link ty amount .add
        noSpentFaults).budgets,
      b.spent = g b.id + linkContrib link ty amount b.id := by
  cases link with
  | none =>
    intro b hb
    cases ty <;> simpa [SupabaseTransactionRepository.adjustIf, linkContrib] using hg b hb
  | some bid =>
    cases ty with
    | income =>
      intro b hb
      simpa [SupabaseTransactionRepository.adjustIf, linkContrib] using hg b hb
    | expense =>
      show ∀ b ∈ (SupabaseTransactionRepository.updateBudgetSpent db bid amount .add
          noSpentFaults).budgets, _
      unfold SupabaseTransactionRepository.updateBudgetSpent
      cases hfind : db.budgets.find? (fun y => y.id == bid) with
      | none =>
        intro b hb
        simp only [noSpentFaults, Bool.false_eq_true, if_false] at hb ⊢
        have hne : b.id ≠ bid := by
          have := List.find?_eq_none.mp hfind b hb
          simpa using this
        rw [linkContrib_of_ne bid b.id .expense amount hne, add_zero]
        exact hg b hb
      | some b0 =>
        have hb0mem : b0 ∈ db.budgets := List.mem_of_find?_eq_some hfind
        have hb0id : b0.id = bid := by
          have := List.find?_some hfind
          simpa using this
        intro b hb
        simp only [noSpentFaults, Bool.false_eq_true, if_false, List.mem_map] at hb
        obtain ⟨y, hy, rfl⟩ := hb
        by_cases hyid : y.id = bid
        · simp only [hyid, beq_self_eq_true, if_true]
          have hb0g : b0.spent = g bid := by rw [hg b0 hb0mem, hb0id]
          have hval : spentOpApply .add b0.spent amount = g bid + amount := by
            rw [spentOpApply, hb0g]
          rw [hval]
          have hnn : 0 ≤ g bid + amount := add_nonneg (hpos bid) hamt
          have hcontrib : linkContrib (some bid) .expense amount bid = amount := by
            simp [linkContrib]
          rw [max_eq_right hnn, hcontrib]
        · have hbeq : (y.id == bid) = false := by simp [hyid]
          rw [hbeq]
          simp only [Bool.false_eq_true, if_false]
          rw [linkContrib_of_ne bid y.id .expense amount hyid, add_zero]
          exact hg y hy

theorem adjustIf_budgets_subtract (db : DB) (link : Option String) (ty : TxType)
    (amount : ℤ) (g : String → ℤ)
    (hg : ∀ b ∈ db.budgets, b.spent = g b.id)
    (hge : ∀ x, linkContrib link ty amount x ≤ g x) :
    ∀ b ∈ (SupabaseTransactionRepository.adjustIf db link ty amount .subtract
        noSpentFaults).budgets,
      b.spent = g b.id - linkContrib link ty amount b.id := by
  cases link with
  | none =>
    intro b hb
    cases ty <;> simpa [SupabaseTransactionRepository.adjustIf, linkContrib] using hg b hb
  | some bid =>
    cases ty with
    | income =>
      intro b hb
      simpa [SupabaseTransactionRepository.adjustIf, linkContrib] using hg b hb
    | expense =>
      show ∀ b ∈ (SupabaseTransactionRepository.updateBudgetSpent db bid amount .subtract
          noSpentFaults).budgets, _
      unfold SupabaseTransactionRepository.updateBudgetSpent
      cases hfind : db.budgets.find? (fun y => y.id == bid) with
      | none =>
        intro b hb
        simp only [noSpentFaults, Bool.false_eq_true, if_false] at hb ⊢
        have hne : b.id ≠ bid := by
          have := List.find?_eq_none.mp hfind b hb
          simpa using this
        rw [linkContrib_of_ne bid b.id .expense amount hne, sub_zero]
        exact hg b hb
      | some b0 =>
        have hb0mem : b0 ∈ db.budgets := List.mem_of_find?_eq_some hfind
        have hb0id : b0.id = bid := by
          have := List.find?_some hfind
          simpa using this
        have hcontrib : linkContrib (some bid) .expense amount bid = amount := by
          simp [linkContrib]
        intro b hb
        simp only [noSpentFaults, Bool.false_eq_true, if_false, List.mem_map] at hb
        obtain ⟨y, hy, rfl⟩ := hb
        by_cases hyid : y.id = bid
        · simp only [hyid, beq_self_eq_true, if_true]
          have hb0g : b0.spent = g bid := by rw [hg b0 hb0mem, hb0id]
          have hval : spentOpApply .subtract b0.spent amount = g bid - amount := by
            rw [spentOpApply, hb0g]
          rw [hval]
          have hnn : 0 ≤ g bid - amount := by
            have := hge bid
            rw [hcontrib] at this
            omega
          rw [max_eq_right hnn, hcontrib]
        · have hbeq : (y.id == bid) = false := by simp [hyid]
          rw [hbeq]
          simp only [Bool.false_eq_true, if_false]
          rw [linkContrib_of_ne bid y.id .expense amount hyid, sub_zero]
          exact hg y hy

/-! Helper lemmas: non-negativity of `spent` is preserved by every step. -/

theorem updateBudgetSpent_nonneg (db : DB) (budgetId : String) (amount : ℤ)
    (operation : SpentOp) (f : SpentFaults)
    (h0 : ∀ b ∈ db.budgets, 0 ≤ b.spent) :
    ∀ b ∈ (SupabaseTransactionRepository.updateBudgetSpent
        db budgetId amount operation f).budgets, 0 ≤ b.spent := by
  unfold SupabaseTransactionRepository.updateBudgetSpent
  by_cases hr : f.readFails = true
  · simpa [hr] using h0
  · cases hfind : db.budgets.find? (fun b => b.id == budgetId) with
    | none => simpa [hr, hfind] using h0
    | some b0 =>
      by_cases hw : f.writeFails = true
      · simpa [hr, hfind, hw] using h0
      · simp only [hr, hfind, hw, Bool.false_eq_true, if_false]
        intro b hb
        simp only [List.mem_map] at hb
        obtain ⟨y, hy, rfl⟩ := hb
        by_cases hyid : y.id = budgetId
        · simp only [hyid, beq_self_eq_true, if_true]
          exact le_max_left 0 _
        · have hbeq : (y.id == budgetId) = false := by simp [hyid]
          rw [hbeq]
          simp only [Bool.false_eq_true, if_false]
          exact h0 y hy

theorem adjustIf_nonneg (db : DB) (link : Option String) (ty : TxType)
    (amount : ℤ) (operation : SpentOp) (f : SpentFaults)
    (h0 : ∀ b ∈ db.budgets, 0 ≤ b.spent) :
    ∀ b ∈ (SupabaseTransactionRepository.adjustIf db link ty amount operation f).budgets,
      0 ≤ b.spent := by
  cases link with
  | none => cases ty <;> exact h0
  | some bid =>
    cases ty with
    | income => exact h0
    | expense => exact updateBudgetSpent_nonneg db bid amount operation f h0

/-! Step lemmas: each successful repository operation preserves the
consistency invariant. -/

theorem create_preserves_invariant (db db' : DB) (rowId userId : String)
    (input : CreateTransactionInput) (row : TransactionRow)
    (hinv : SpentInvariant db) (hamt : 0 ≤ input.amount)
    (h : SupabaseTransactionRepository.create db rowId userId input
        SupabaseTransactionRepository.noCreateFaults = (db', .ok row)) :
    SpentInvariant db' := by
  obtain ⟨hnd, hpos, hsp⟩ := hinv
  simp only [SupabaseTransactionRepository.create,
    SupabaseTransactionRepository.noCreateFaults] at h
  by_cases hdup : db.transactions.any (fun t => t.id == rowId) = true
  · simp [hdup] at h
  · simp only [hdup, Bool.false_eq_true, if_false, Prod.mk.injEq, Except.ok.injEq] at h
    obtain ⟨hdb, hrow⟩ := h
    subst hdb
    have hfresh : ∀ t ∈ db.transactions, t.id ≠ rowId := by
      intro t ht hc
      exact hdup (List.any_eq_true.mpr ⟨t, ht, by simp [hc]⟩)
    refine ⟨?_, ?_, ?_⟩
    · rw [adjustIf_transactions]
      show ((db.transactions ++ [SupabaseTransactionRepository.mkRow rowId userId input]).map
        (fun t => t.id)).Nodup
      rw [List.map_append, List.nodup_append]
      refine ⟨hnd, List.nodup_singleton _, ?_⟩
      intro x hx hx2
      simp only [List.mem_map] at hx
      obtain ⟨t, ht, rfl⟩ := hx
      simp only [List.map_cons, List.map_nil, List.mem_singleton] at hx2
      exact hfresh t ht hx2
    · rw [adjustIf_transactions]
      intro t ht
      rcases List.mem_append.mp ht with hl | hr
      · exact hpos t hl
      · rw [List.mem_singleton] at hr
        subst hr
        exact hamt
    · have hadj := adjustIf_budgets_add
        { db with transactions :=
            db.transactions ++ [SupabaseTransactionRepository.mkRow rowId userId input] }
        input.budgetId input.type input.amount (sumSpent db.transactions)
        (fun b hb => hsp b hb)
        (fun x => sumSpent_nonneg db.transactions x hpos) hamt
      intro b hb
      rw [adjustIf_transactions]
      show b.spent = sumSpent
        (db.transactions ++ [SupabaseTransactionRepository.mkRow rowId userId input]) b.id
      rw [sumSpent_append_single, hadj b hb]
      rfl

theorem delete_preserves_invariant (db db' : DB) (transactionId : String)
    (hinv : SpentInvariant db)
    (h : SupabaseTransactionRepository.delete db transactionId
        SupabaseTransactionRepository.noDeleteFaults = (db', .ok ())) :
    SpentInvariant db' := by
  obtain ⟨hnd, hpos, hsp⟩ := hinv
  cases hfind : db.findTransaction transactionId with
  | none =>
    simp only [SupabaseTransactionRepository.delete,
      SupabaseTransactionRepository.noDeleteFaults,
      SupabaseTransactionRepository.getById, hfind, Prod.mk.injEq] at h
    obtain ⟨hdb, -⟩ := h
    subst hdb
    have hfeq : db.transactions.filter (fun u => u.id != transactionId) = db.transactions :=
      filter_eq_of_find?_none db.transactions transactionId hfind
    refine ⟨?_, ?_, ?_⟩
    · show ((db.transactions.filter (fun u => u.id != transactionId)).map
        (fun t => t.id)).Nodup
      rw [hfeq]
      exact hnd
    · intro t ht
      exact hpos t (List.mem_of_mem_filter ht)
    · intro b hb
      show b.spent = sumSpent (db.transactions.filter (fun u => u.id != transactionId)) b.id
      rw [hfeq]
      exact hsp b hb
  | some t =>
    simp only [SupabaseTransactionRepository.delete,
      SupabaseTransactionRepository.noDeleteFaults,
      SupabaseTransactionRepository.getById, hfind, Prod.mk.injEq] at h
    obtain ⟨hdb, -⟩ := h
    subst hdb
    have hmem : t ∈ db.transactions := List.mem_of_find?_eq_some hfind
    refine ⟨?_, ?_, ?_⟩
    · rw [adjustIf_transactions]
      show ((db.transactions.filter (fun u => u.id != transactionId)).map
        (fun t => t.id)).Nodup
      exact List.Nodup.sublist
        ((List.filter_sublist db.transactions).map (fun u => u.id)) hnd
    · rw [adjustIf_transactions]
      intro u hu
      exact hpos u (List.mem_of_mem_filter hu)
    · have hge : ∀ x, linkContrib t.budgetId t.type t.amount x ≤
          sumSpent db.transactions x := by
        intro x
        rw [← txContrib_eq_linkContrib]
        exact txContrib_le_sumSpent db.transactions x t hpos hmem
      have hadj := adjustIf_budgets_subtract
        { db with transactions := db.transactions.filter (fun u => u.id != transactionId) }
        t.budgetId t.type t.amount (sumSpent db.transactions)
        (fun b hb => hsp b hb) hge
      intro b hb
      rw [adjustIf_transactions]
      show b.spent = sumSpent
        (db.transactions.filter (fun u => u.id != transactionId)) b.id
      rw [sumSpent_filter_of_find? db.transactions transactionId t b.id hnd hfind,
        hadj b hb, txContrib_eq_linkContrib]

theorem update_preserves_invariant (db db' : DB) (transactionId : String)
    (input : UpdateTransactionInput) (row : TransactionRow)
    (hinv : SpentInvariant db) (hamt : ∀ a, input.amount = some a → 0 ≤ a)
    (h : SupabaseTransactionRepository.update db transactionId input
        SupabaseTransactionRepository.noUpdateFaults = (db', .ok row)) :
    SpentInvariant db' := by
  obtain ⟨hnd, hpos, hsp⟩ := hinv
  cases hfind : db.findTransaction transactionId with
  | none =>
    simp [SupabaseTransactionRepository.update,
      SupabaseTransactionRepository.noUpdateFaults,
      SupabaseTransactionRepository.getById, hfind] at h
  | some old =>
    simp only [SupabaseTransactionRepository.update,
      SupabaseTransactionRepository.noUpdateFaults,
      SupabaseTransactionRepository.getById, hfind, Prod.mk.injEq,
      Except.ok.injEq] at h
    obtain ⟨hdb, hrow⟩ := h
    subst hdb
    have hmem : old ∈ db.transactions := List.mem_of_find?_eq_some hfind
    have hids : ((db.transactions.map (fun u =>
        if u.id == transactionId
        then SupabaseTransactionRepository.applyUpdateData u input else u)).map
          (fun t => t.id)) = db.transactions.map (fun t => t.id) := by
      rw [List.map_map]
      apply List.map_congr_left
      intro u _
      by_cases hu : u.id = transactionId <;>
        simp [hu, Function.comp, SupabaseTransactionRepository.applyUpdateData]
    refine ⟨?_, ?_, ?_⟩
    · rw [adjustIf_transactions, adjustIf_transactions]
      show ((db.transactions.map (fun u =>
        if u.id == transactionId
        then SupabaseTransactionRepository.applyUpdateData u input else u)).map
          (fun t => t.id)).Nodup
      rw [hids]
      exact hnd
    · rw [adjustIf_transactions, adjustIf_transactions]
      intro u hu
      simp only [List.mem_map] at hu
      obtain ⟨y, hy, rfl⟩ := hu
      by_cases hyid : y.id = transactionId
      · simp only [hyid, beq_self_eq_true, if_true]
        show 0 ≤ input.amount.getD y.amount
        cases hia : input.amount with
        | none => exact hpos y hy
        | some a => exact hamt a hia
      · have hbeq : (y.id == transactionId) = false := by simp [hyid]
        rw [hbeq]
        simp only [Bool.false_eq_true, if_false]
        exact hpos y hy
    · have hge : ∀ x, linkContrib old.budgetId old.type old.amount x ≤
          sumSpent db.transactions x := by
        intro x
        rw [← txContrib_eq_linkContrib]
        exact txContrib_le_sumSpent db.transactions x old hpos hmem
      have hadj1 := adjustIf_budgets_subtract
        { db with transactions := db.transactions.map (fun u =>
            if u.id == transactionId
            then SupabaseTransactionRepository.applyUpdateData u input else u) }
        old.budgetId old.type old.amount (sumSpent db.transactions)
        (fun b hb => hsp b hb) hge
      have hpos1 : ∀ x, 0 ≤ sumSpent db.transactions x -
          linkContrib old.budgetId old.type old.amount x := by
        intro x
        have := hge x
        omega
      have hamt2 : 0 ≤ (SupabaseTransactionRepository.applyUpdateData old input).amount := by
        show 0 ≤ input.amount.getD old.amount
        cases hia : input.amount with
        | none => exact hpos old hmem
        | some a => exact hamt a hia
      have hadj2 := adjustIf_budgets_add
        (SupabaseTransactionRepository.adjustIf
          { db with transactions := db.transactions.map (fun u =>
              if u.id == transactionId
              then SupabaseTransactionRepository.applyUpdateData u input else u) }
          old.budgetId old.type old.amount .subtract noSpentFaults)
        (SupabaseTransactionRepository.applyUpdateData old input).budgetId
        (SupabaseTransactionRepository.applyUpdateData old input).type
        (SupabaseTransactionRepository.applyUpdateData old input).amount
        (fun x => sumSpent db.transactions x -
          linkContrib old.budgetId old.type old.amount x)
        hadj1 hpos1 hamt2
      intro b hb
      rw [adjustIf_transactions, adjustIf_transactions]
      show b.spent = sumSpent (db.transactions.map (fun u =>
        if u.id == transactionId
        then SupabaseTransactionRepository.applyUpdateData u input else u)) b.id
      rw [sumSpent_map_update db.transactions transactionId old input b.id hnd hfind]
      rw [hadj2 b hb]
      rfl

theorem create_nonneg (db : DB) (rowId userId : String)
    (input : CreateTransactionInput) (f : SupabaseTransactionRepository.CreateFaults)
    (h0 : ∀ b ∈ db.budgets, 0 ≤ b.spent) :
    ∀ b ∈ (SupabaseTransactionRepository.create db rowId userId input f).1.budgets,
      0 ≤ b.spent := by
  obtain ⟨ie, fs⟩ := f
  cases ie with
  | some e => exact h0
  | none =>
    by_cases hdup : db.transactions.any (fun t => t.id == rowId) = true
    · simp only [SupabaseTransactionRepository.create, hdup, if_true]
      exact h0
    · simp only [SupabaseTransactionRepository.create, hdup, Bool.false_eq_true, if_false]
      exact adjustIf_nonneg _ _ _ _ _ _ h0

theorem update_nonneg (db : DB) (transactionId : String)
    (input : UpdateTransactionInput) (f : SupabaseTransactionRepository.UpdateFaults)
    (h0 : ∀ b ∈ db.budgets, 0 ≤ b.spent) :
    ∀ b ∈ (SupabaseTransactionRepository.update db transactionId input f).1.budgets,
      0 ≤ b.spent := by
  obtain ⟨oe, re, fs1, fs2⟩ := f
  cases hg : SupabaseTransactionRepository.getById db transactionId oe with
  | error e =>
    simp only [SupabaseTransactionRepository.update, hg]
    exact h0
  | ok oldTransaction =>
    cases re with
    | some e =>
      simp only [SupabaseTransactionRepository.update, hg]
      exact h0
    | none =>
      cases hfind : db.findTransaction transactionId with
      | none =>
        simp only [SupabaseTransactionRepository.update, hg, hfind]
        exact h0
      | some old =>
        simp only [SupabaseTransactionRepository.update, hg, hfind]
        cases oldTransaction with
        | none => exact adjustIf_nonneg _ _ _ _ _ _ h0
        | some o => exact adjustIf_nonneg _ _ _ _ _ _ (adjustIf_nonneg _ _ _ _ _ _ h0)

theorem delete_nonneg (db : DB) (transactionId : String)
    (f : SupabaseTransactionRepository.DeleteFaults)
    (h0 : ∀ b ∈ db.budgets, 0 ≤ b.spent) :
    ∀ b ∈ (SupabaseTransactionRepository.delete db transactionId f).1.budgets,
      0 ≤ b.spent := by
  obtain ⟨fe, de, fs⟩ := f
  cases hg : SupabaseTransactionRepository.getById db transactionId fe with
  | error e =>
    simp only [SupabaseTransactionRepository.delete, hg]
    exact h0
  | ok transaction =>
    cases de with
    | some e =>
      simp only [SupabaseTransactionRepository.delete, hg]
      exact h0
    | none =>
      simp only [SupabaseTransactionRepository.delete, hg]
      cases transaction with
      | none => exact h0
      | some t => exact adjustIf_nonneg _ _ _ _ _ _ h0

theorem applyTxOp_nonneg (db db' : DB) (op : TxOp)
    (h0 : ∀ b ∈ db.budgets, 0 ≤ b.spent) (h : applyTxOp db op = some db') :
    ∀ b ∈ db'.budgets, 0 ≤ b.spent := by
  cases op with
  | create rowId userId input =>
    simp only [applyTxOp] at h
    rcases hc : SupabaseTransactionRepository.create db rowId userId input
      SupabaseTransactionRepository.noCreateFaults with ⟨db1, r⟩
    rw [hc] at h
    cases r with
    | error e => simp at h
    | ok row =>
      obtain rfl : db1 = db' := by simpa using h
      have := create_nonneg db rowId userId input
        SupabaseTransactionRepository.noCreateFaults h0
      rw [hc] at this
      exact this
  | update transactionId input =>
    simp only [applyTxOp] at h
    rcases hc : SupabaseTransactionRepository.update db transactionId input
      SupabaseTransactionRepository.noUpdateFaults with ⟨db1, r⟩
    rw [hc] at h
    cases r with
    | error e => simp at h
    | ok row =>
      obtain rfl : db1 = db' := by simpa using h
      have := update_nonneg db transactionId input
        SupabaseTransactionRepository.noUpdateFaults h0
      rw [hc] at this
      exact this
  | delete transactionId =>
    simp only [applyTxOp] at h
    rcases hc : SupabaseTransactionRepository.delete db transactionId
      SupabaseTransactionRepository.noDeleteFaults with ⟨db1, r⟩
    rw [hc] at h
    cases r with
    | error e => simp at h
    | ok u =>
      obtain rfl : db1 = db' := by simpa using h
      have := delete_nonneg db transactionId
        SupabaseTransactionRepository.noDeleteFaults h0
      rw [hc] at this
      exact this

theorem runTxOps_nonneg (ops : List TxOp) (db db' : DB)
    (h0 : ∀ b ∈ db.budgets, 0 ≤ b.spent) (h : runTxOps db ops = some db') :
    ∀ b ∈ db'.budgets, 0 ≤ b.spent := by
  induction ops generalizing db with
  | nil =>
    simp only [runTxOps, Option.some.injEq] at h
    subst h
    exact h0
  | cons op ops ih =>
    simp only [runTxOps] at h
    cases happ : applyTxOp db op with
    | none => rw [happ] at h; simp at h
    | some db1 =>
      rw [happ] at h
      simp only [Option.some_bind] at h
      exact ih db1 (applyTxOp_nonneg db db1 op h0 happ) h

theorem applyTxOp_invariant (db db' : DB) (op : TxOp)
    (hinv : SpentInvariant db) (hop : op.amountsNonneg)
    (h : applyTxOp db op = some db') : SpentInvariant db' := by
  cases op with
  | create rowId userId input =>
    simp only [applyTxOp] at h
    rcases hc : SupabaseTransactionRepository.create db rowId userId input
      SupabaseTransactionRepository.noCreateFaults with ⟨db1, r⟩
    rw [hc] at h
    cases r with
    | error e => simp at h
    | ok row =>
      obtain rfl : db1 = db' := by simpa using h
      exact create_preserves_invariant db db1 rowId userId input row hinv hop hc
  | update transactionId input =>
    simp only [applyTxOp] at h
    rcases hc : SupabaseTransactionRepository.update db transactionId input
      SupabaseTransactionRepository.noUpdateFaults with ⟨db1, r⟩
    rw [hc] at h
    cases r with
    | error e => simp at h
    | ok row =>
      obtain rfl : db1 = db' := by simpa using h
      refine update_preserves_invariant db db1 transactionId input row hinv ?_ hc
      intro a ha
      have hop' : (TxOp.update transactionId input).amountsNonneg := hop
      simp only [TxOp.amountsNonneg] at hop'
      rw [ha] at hop'
      exact hop'
  | delete transactionId =>
    simp only [applyTxOp] at h
    rcases hc : SupabaseTransactionRepository.delete db transactionId
      SupabaseTransactionRepository.noDeleteFaults with ⟨db1, r⟩
    rw [hc] at h
    cases r with
    | error e => simp at h
    | ok u =>
      obtain rfl : db1 = db' := by simpa using h
      exact delete_preserves_invariant db db1 transactionId hinv hc

theorem runTxOps_invariant (ops : List TxOp) (db db' : DB)
    (hinv : SpentInvariant db) (hops : ∀ op ∈ ops, op.amountsNonneg)
    (h : runTxOps db ops = some db') : SpentInvariant db' := by
  induction ops generalizing db with
  | nil =>
    simp only [runTxOps, Option.some.injEq] at h
    subst h
    exact hinv
  | cons op ops ih =>
    simp only [runTxOps] at h
    cases happ : applyTxOp db op with
    | none => rw [happ] at h; simp at h
    | some db1 =>
      rw [happ] at h
      simp only [Option.some_bind] at h
      exact ih db1
        (applyTxOp_invariant db db1 op hinv (hops op (List.mem_cons_self op ops)) happ)
        (fun o ho => hops o (List.mem_cons_of_mem op ho)) h

/-- C1: for every sequence of transaction creates, updates and deletes in
which no persistence operation fails, starting from a consistent store
(distinct transaction ids, non-negative amounts — the validation layer
rejects negative amounts before any network call — and every budget's `spent`
equal to the sum of the expense transactions referencing it), each budget's
`spent` after the sequence still equals the sum of the amounts of the
expense-type transactions that currently exist and reference it. -/
theorem c1_spent_matches_sum (db db' : DB) (ops : List TxOp)
    (hinv : SpentInvariant db) (hops : ∀ op ∈ ops, op.amountsNonneg)
    (hrun : runTxOps db ops = some db') :
    ∀ b ∈ db'.budgets, b.spent = sumSpent db'.transactions b.id :=
  (runTxOps_invariant ops db db' hinv hops hrun).2.2

/-- C1 witness: the invariant evaluated after a concrete create against a
fresh budget. -/
theorem c1_spent_matches_sum_witness :
    budgetB120 ∈ dbC1end.budgets ∧
    budgetB120.spent = sumSpent dbC1end.transactions budgetB120.id :=
  ⟨by decide,
   c1_spent_matches_sum dbC2start dbC1end [opCreateT1] (by decide) (by decide)
     (by decide) budgetB120 (by decide)⟩

/-- C3: every value an aggregate adjustment writes is `max 0 (spent ± amount)`
— each budget row after an adjustment is either an untouched old row or
carries exactly that clamped value — and consequently, starting from
non-negative `spent` values, `spent` stays non-negative through every
sequence of transaction operations. -/
theorem c3_spent_clamped_nonneg (db db' : DB) (budgetId : String) (amount : ℤ)
    (operation : SpentOp) (f : SpentFaults) (ops : List TxOp)
    (h0 : ∀ b ∈ db.budgets, 0 ≤ b.spent) (hrun : runTxOps db ops = some db') :
    (∀ b' ∈ (SupabaseTransactionRepository.updateBudgetSpent
        db budgetId amount operation f).budgets,
      b' ∈ db.budgets ∨
        ∃ b0, db.budgets.find? (fun y => y.id == budgetId) = some b0 ∧
          b'.spent = max 0 (spentOpApply operation b0.spent amount)) ∧
    (∀ b' ∈ db'.budgets, 0 ≤ b'.spent) := by
  constructor
  · unfold SupabaseTransactionRepository.updateBudgetSpent
    by_cases hr : f.readFails = true
    · simp only [hr, if_true]
      intro b' hb'
      exact Or.inl hb'
    · cases hfind : db.budgets.find? (fun y => y.id == budgetId) with
      | none =>
        simp only [hr, hfind, Bool.false_eq_true, if_false]
        intro b' hb'
        exact Or.inl hb'
      | some b0 =>
        by_cases hw : f.writeFails = true
        · simp only [hr, hfind, hw, Bool.false_eq_true, if_false, if_true]
          intro b' hb'
          exact Or.inl hb'
        · simp only [hr, hfind, hw, Bool.false_eq_true, if_false]
          intro b' hb'
          simp only [List.mem_map] at hb'
          obtain ⟨y, hy, rfl⟩ := hb'
          by_cases hyid : y.id = budgetId
          · simp only [hyid, beq_self_eq_true, if_true]
            exact Or.inr ⟨b0, rfl, rfl⟩
          · have hbeq : (y.id == budgetId) = false := by simp [hyid]
            rw [hbeq]
            simp only [Bool.false_eq_true, if_false]
            exact Or.inl hy
  · exact runTxOps_nonneg ops db db' h0 hrun

/-- C3 witness: the clamped-nonnegativity conclusion at a concrete run. -/
theorem c3_spent_clamped_nonneg_witness : 0 ≤ budgetB120.spent :=
  (c3_spent_clamped_nonneg dbC2start dbC1end "b1" 12000 .add noSpentFaults
      [opCreateT1] (by decide) (by decide)).2 budgetB120 (by decide)

theorem adjustIf_none (db : DB) (ty : TxType) (amount : ℤ)
    (operation : SpentOp) (f : SpentFaults) :
    SupabaseTransactionRepository.adjustIf db none ty amount operation f = db := by
  cases ty <;> rfl

theorem find?_budget_unique (bs : List BudgetRow) (bid : String) (b x : BudgetRow)
    (hnd : (bs.map (fun y => y.id)).Nodup)
    (hf : bs.find? (fun y => y.id == bid) = some b)
    (hx : x ∈ bs) (hid : x.id = bid) : x = b := by
  induction bs with
  | nil => simp at hx
  | cons a l ih =>
    simp only [List.map_cons, List.nodup_cons] at hnd
    by_cases ha : a.id = bid
    · have hfa : (a :: l).find? (fun y => y.id == bid) = some a :=
        List.find?_cons_of_pos _ (by simp [ha])
      rw [hf] at hfa
      obtain rfl : b = a := Option.some.inj hfa
      rcases List.mem_cons.mp hx with rfl | hxl
      · rfl
      · exfalso
        apply hnd.1
        rw [ha, ← hid]
        exact List.mem_map_of_mem (fun y => y.id) hxl
    · have hfl : l.find? (fun y => y.id == bid) = some b := by
        rw [List.find?_cons_of_neg _ (by simp [ha])] at hf
        exact hf
      rcases List.mem_cons.mp hx with rfl | hxl
      · exact absurd hid ha
      · exact ih hnd.2 hfl hxl

/-- C7: updating an expense transaction linked to budget B so that its budget
reference is cleared (an update whose only present field is `budgetId: null`)
yields the merged row, decreases B's `spent` by exactly the transaction's
amount (given B's `spent` was at least that amount, so the zero clamp does
not engage), and leaves the `spent` of every budget with a different id
unchanged. -/
theorem c7_unlink_decreases_only_linked_budget (db : DB) (tid bid : String)
    (t : TransactionRow) (b : BudgetRow)
    (hndB : (db.budgets.map (fun y => y.id)).Nodup)
    (hfind : db.findTransaction tid = some t)
    (htype : t.type = .expense)
    (hlink : t.budgetId = some bid)
    (hfb : db.budgets.find? (fun y => y.id == bid) = some b)
    (hge : t.amount ≤ b.spent) :
    (SupabaseTransactionRepository.update db tid clearBudgetInput
        SupabaseTransactionRepository.noUpdateFaults).2 =
      .ok (SupabaseTransactionRepository.applyUpdateData t clearBudgetInput) ∧
    (SupabaseTransactionRepository.update db tid clearBudgetInput
        SupabaseTransactionRepository.noUpdateFaults).1.budgets =
      db.budgets.map (fun x =>
        if x.id = bid then { x with spent := x.spent - t.amount } else x) := by
  have hstep : SupabaseTransactionRepository.update db tid clearBudgetInput
      SupabaseTransactionRepository.noUpdateFaults =
    (SupabaseTransactionRepository.adjustIf
        { db with transactions := db.transactions.map (fun u =>
            if u.id == tid
            then SupabaseTransactionRepository.applyUpdateData u clearBudgetInput else u) }
        t.budgetId t.type t.amount .subtract noSpentFaults,
      .ok (SupabaseTransactionRepository.applyUpdateData t clearBudgetInput)) := by
    simp only [SupabaseTransactionRepository.update,
      SupabaseTransactionRepository.noUpdateFaults,
      SupabaseTransactionRepository.getById, hfind]
    have hnone : (SupabaseTransactionRepository.applyUpdateData t clearBudgetInput).budgetId =
        none := rfl
    rw [hnone, adjustIf_none]
  refine ⟨?_, ?_⟩
  · rw [hstep]
  · rw [hstep]
    rw [hlink, htype]
    show (SupabaseTransactionRepository.updateBudgetSpent
      { db with transactions := db.transactions.map (fun u =>
          if u.id == tid
          then SupabaseTransactionRepository.applyUpdateData u clearBudgetInput else u) }
      bid t.amount .subtract noSpentFaults).budgets = _
    unfold SupabaseTransactionRepository.updateBudgetSpent
    simp only [noSpentFaults, Bool.false_eq_true, if_false, hfb]
    apply List.map_congr_left
    intro y hy
    by_cases hyid : y.id = bid
    · obtain rfl : y = b := find?_budget_unique db.budgets bid b y hndB hfb hy hyid
      simp only [hyid, beq_self_eq_true, if_true]
      have hval : spentOpApply .subtract y.spent t.amount = y.spent - t.amount := rfl
      rw [hval, max_eq_right (by omega)]
    · have hbeq : (y.id == bid) = false := by simp [hyid]
      rw [hbeq]
      simp [hyid]

/-- C7 witness: unlinking T1 (amount 12000) from budget B in a store where
B.spent = 12000 and a second budget C exists brings B's spent to 0 and leaves
C untouched. -/
theorem c7_unlink_witness :
    (SupabaseTransactionRepository.update db7 "t1" clearBudgetInput
        SupabaseTransactionRepository.noUpdateFaults).1.budgets = [budgetB, budgetC] := by
  have h := c7_unlink_decreases_only_linked_budget db7 "t1" "b1" rowT1 budgetB120
    (by decide) (by decide) (by decide) (by decide) (by decide) (by decide)
  rw [h.2]
  decide
